import Mathlib

/-!
Verification of the LogDevice log-recovery and epoch-sequencing core
against its natural-language specification.

The definitions below are shallow embeddings of the C++ source:
  * the Admin API snapshot handlers and getReplicationInfo
    (logdevice/admin/AdminAPIHandler.cpp),
  * server startup population of the per-log storage state map,
    epoch-store backend selection and the server constructor
    (Server.cpp),
  * the checkpointed reader (lib/checkpointing/CheckpointedReaderBase.cpp
    and SyncCheckpointedReaderImpl.cpp).
Machine integers are modelled as Nat, with explicit reduction modulo
2 ^ 64 where 64-bit overflow matters.  Definitions marked
"Modelled from the spec" stand for repository code whose body is not
part of the excerpt; they follow the specification text.
-/

namespace LogDevice

/-- LSN_INVALID is 0 in the source. -/
def LSN_INVALID : Nat := 0

/-- LSN_MAX is the largest 64-bit value. -/
def LSN_MAX : Nat := 2 ^ 64 - 1

/-- The subset of logdevice Status codes used by the embedded code paths. -/
inductive Status where
  | ok
  | uptodate
  | notfound
  | malformedRecord
  | unknown
  | failed
  | shutdown
  | invalidOperation
  deriving DecidableEq, Repr

/-- Outcome of an Admin API snapshot request as observed by the caller:
the promise is either fulfilled (success) or broken with one of the
thrift exceptions raised in AdminAPIHandler.cpp. -/
inductive SnapshotResult where
  | success
  | notSupported
  | staleVersion (serverVersion : Nat)
  | nodeNotReady
  | operationError (st : Status)
  deriving DecidableEq, Repr

/-- State consulted by semifuture_takeLogTreeSnapshot: the two settings
gates, the LogsConfig version, whether the LogsConfigManager RSM has
fully replayed, and the status that the RSM snapshot call reports
through its callback. -/
structure LogTreeSnapshotEnv where
  enableLogsconfigManager : Bool
  logsconfigSnapshotting : Bool
  logsconfigVersion : Nat
  fullyLoaded : Bool
  snapshotStatus : Status
  deriving Repr

/-- The snapshot_cb lambda of semifuture_takeLogTreeSnapshot: E::OK
and E::UPTODATE fulfill the promise, every other status becomes an
OperationError exception. -/
def logTreeSnapshotCompletion : Status → SnapshotResult
  | .ok => .success
  | .uptodate => .success
  | st => .operationError st

/-- AdminAPIHandler::semifuture_takeLogTreeSnapshot.  The settings
gates are checked first; then, on the owning worker, the stale-version
check runs before the fully-replayed check; finally the RSM snapshot
completion callback determines the result. -/
def takeLogTreeSnapshot (env : LogTreeSnapshotEnv) (minVersion : Nat) :
    SnapshotResult :=
  if !env.enableLogsconfigManager then
    .notSupported
  else if !env.logsconfigSnapshotting then
    .notSupported
  else if minVersion > 0 && decide (env.logsconfigVersion < minVersion) then
    .staleVersion env.logsconfigVersion
  else if !env.fullyLoaded then
    .nodeNotReady
  else
    logTreeSnapshotCompletion env.snapshotStatus

/-- State consulted by semifuture_takeMaintenanceLogSnapshot. -/
structure MaintenanceSnapshotEnv where
  enableClusterMaintenanceStateMachine : Bool
  maintenanceLogSnapshotting : Bool
  stateVersion : Nat
  fullyLoaded : Bool
  snapshotStatus : Status
  deriving Repr

/-- The snapshot_cb lambda of semifuture_takeMaintenanceLogSnapshot:
only E::OK fulfills the promise; every other status — including
E::UPTODATE — becomes an OperationError exception. -/
def maintenanceSnapshotCompletion : Status → SnapshotResult
  | .ok => .success
  | st => .operationError st

/-- AdminAPIHandler::semifuture_takeMaintenanceLogSnapshot.  The
settings gates are checked first; then, on the owning worker, the
fully-replayed check runs before the stale-version check; finally the
RSM snapshot completion callback determines the result. -/
def takeMaintenanceLogSnapshot (env : MaintenanceSnapshotEnv)
    (minVersion : Nat) : SnapshotResult :=
  if !env.enableClusterMaintenanceStateMachine then
    .notSupported
  else if !env.maintenanceLogSnapshotting then
    .notSupported
  else if !env.fullyLoaded then
    .nodeNotReady
  else if minVersion > 0 && decide (env.stateVersion < minVersion) then
    .staleVersion env.stateVersion
  else
    maintenanceSnapshotCompletion env.snapshotStatus

/-- A replicated state machine as seen by its snapshot operation:
the version of the materialized view and the version of the latest
written snapshot. -/
structure RsmState where
  version : Nat
  snapshotVersion : Nat
  deriving DecidableEq, Repr

/-- Modelled from the spec: the RSM snapshot operation (the body of
ReplicatedStateMachine::snapshot is not part of the excerpt).  A
snapshot request is idempotent if a snapshot already exists at or
above the current version — the callback then reports E::UPTODATE and
no new snapshot is written; otherwise a snapshot at the current
version is written and the callback reports E::OK. -/
def rsmSnapshot (s : RsmState) : RsmState × Status :=
  if s.version ≤ s.snapshotVersion then
    (s, .uptodate)
  else
    ({ s with snapshotVersion := s.version }, .ok)

/-! ### Per-shard, per-log storage state population at startup
(Server::initLogStorageStateMap). -/

/-- Status delivered to a traverseLogsMetadata callback for one record.
The callback in Server::initLogStorageStateMap asserts (ld_check_eq)
that every non-OK status it sees is E::MALFORMED_RECORD, so these are
the two possible values. -/
inductive TraverseStatus where
  | ok
  | malformedRecord
  deriving DecidableEq, Repr

/-- In-memory LogStorageState summary for one log on one shard:
trim point, last clean epoch, last released LSN, and the permanent
error flag set by notePermanentError. -/
structure LogState where
  trimPoint : Nat
  lastCleanEpoch : Nat
  lastReleasedLSN : Nat
  permanentError : Bool
  deriving DecidableEq, Repr

/-- A freshly inserted LogStorageState: all watermarks at their invalid
defaults and no permanent error. -/
def LogState.initial : LogState :=
  { trimPoint := LSN_INVALID
    lastCleanEpoch := 0
    lastReleasedLSN := LSN_INVALID
    permanentError := false }

/-- The per-shard map from LogID to LogStorageState. -/
def ShardMap : Type := Nat → Option LogState

/-- The empty per-shard map at the beginning of startup population. -/
def ShardMap.empty : ShardMap := fun _ => none

/-- LogStorageStateMap::insertOrGet is idempotent and creates the
default state on first access; this is the map after the call. -/
def ShardMap.insertOrGet (m : ShardMap) (logId : Nat) : ShardMap :=
  fun l => if l = logId then some ((m logId).getD LogState.initial) else m l

/-- Replace the state of one log in the map. -/
def ShardMap.set (m : ShardMap) (logId : Nat) (st : LogState) : ShardMap :=
  fun l => if l = logId then some st else m l

/-- The three kinds of per-log metadata traversed at startup. -/
inductive MetaKind where
  | trimPoint
  | lastClean
  | lastReleased
  deriving DecidableEq, Repr

/-- One metadata record delivered by traverseLogsMetadata: the log it
belongs to, the delivery status, and the decoded value (a trim-point
LSN, a last-clean epoch, or a last-released LSN depending on the
traversal kind). -/
structure MetaRecord where
  logId : Nat
  status : TraverseStatus
  value : Nat
  deriving DecidableEq, Repr

/-- Modelled from the spec: LogStorageState updateTrimPoint,
updateLastCleanEpoch and updateLastReleasedLSN (their bodies are not
part of the excerpt) perform monotonic updates only — a call with a
value lower than the stored one is a no-op. -/
def LogState.applyUpdate (st : LogState) (k : MetaKind) (v : Nat) :
    LogState :=
  match k with
  | .trimPoint => { st with trimPoint := max st.trimPoint v }
  | .lastClean => { st with lastCleanEpoch := max st.lastCleanEpoch v }
  | .lastReleased => { st with lastReleasedLSN := max st.lastReleasedLSN v }

/-- LogStorageState::notePermanentError marks the state as poisoned. -/
def LogState.notePermanentError (st : LogState) : LogState :=
  { st with permanentError := true }

/-- The callback produced by make_traverser in
Server::initLogStorageStateMap: insertOrGet the state for the record's
log; if it already has a permanent error, ignore the record; if the
record status is OK, apply the kind-specific monotonic update;
otherwise (MALFORMED_RECORD) notePermanentError on the state. -/
def traverseCallback (k : MetaKind) (m : ShardMap) (r : MetaRecord) :
    ShardMap :=
  let m1 := m.insertOrGet r.logId
  let st := (m r.logId).getD LogState.initial
  if st.permanentError then
    m1
  else
    match r.status with
    | .ok => m1.set r.logId (st.applyUpdate k r.value)
    | .malformedRecord => m1.set r.logId st.notePermanentError

/-- Folding the traversal callback over all records delivered by one
traverseLogsMetadata call. -/
def traverseShard (k : MetaKind) (m : ShardMap) (recs : List MetaRecord) :
    ShardMap :=
  recs.foldl (traverseCallback k) m

/-- The inputs a single shard presents to its population task: the
records delivered and the overall return value of each of the three
traverseLogsMetadata calls (true models rv == 0), and whether
switchToFailingLocalLogStore would succeed on this shard. -/
structure ShardInput where
  trimRecs : List MetaRecord
  trimOk : Bool
  lceRecs : List MetaRecord
  lceOk : Bool
  lrRecs : List MetaRecord
  lrOk : Bool
  switchOk : Bool

/-- Outcome of one shard's population task: the populated map, whether
the shard's backend ended up switched to FailingLocalLogStore, and the
boolean the task returns. -/
structure ShardOutcome where
  map : ShardMap
  switchedToFailing : Bool
  taskOk : Bool

/-- The code at the out label of the per-shard task: when rv != 0 the
backend is switched to FailingLocalLogStore, and the task fails only
when that switch itself fails. -/
def shardFinish (m : ShardMap) (rvOk : Bool) (switchOk : Bool) :
    ShardOutcome :=
  if rvOk then
    ⟨m, false, true⟩
  else
    ⟨m, switchOk, switchOk⟩

/-- The per-shard population task of Server::initLogStorageStateMap:
three metadata traversals in order, jumping to the finish code as soon
as one of them returns an error. -/
def processShard (inp : ShardInput) : ShardOutcome :=
  let m1 := traverseShard .trimPoint ShardMap.empty inp.trimRecs
  if !inp.trimOk then
    shardFinish m1 false inp.switchOk
  else
    let m2 := traverseShard .lastClean m1 inp.lceRecs
    if !inp.lceOk then
      shardFinish m2 false inp.switchOk
    else
      let m3 := traverseShard .lastReleased m2 inp.lrRecs
      shardFinish m3 inp.lrOk inp.switchOk

/-- Whether any of the three traversals on a shard reports an error
(taking into account that a traversal is skipped once an earlier one
failed). -/
def shardHadTraversalError (inp : ShardInput) : Bool :=
  !(inp.trimOk && inp.lceOk && inp.lrOk)

/-- Server::initLogStorageStateMap: one population task per shard, and
the overall result is true only if every task returned true. -/
def initLogStorageStateMap (shards : List ShardInput) :
    List ShardOutcome × Bool :=
  let outs := shards.map processShard
  (outs, outs.all (·.taskOk))

/-! ### Epoch store backend selection and server construction
(Server::initSequencers and Server::Server). -/

/-- The two epoch store backends. -/
inductive EpochStoreBackend where
  | file
  | rqlite
  deriving DecidableEq, Repr

/-- Inputs to Server::initSequencers: the epoch-store-path server
setting and whether each backend constructor would succeed (a failing
constructor throws ConstructorFailed). -/
structure SequencerInitEnv where
  epochStorePath : String
  fileCtorOk : Bool
  rqliteCtorOk : Bool

/-- Server::initSequencers: construct a FileEpochStore when
epoch-store-path is non-empty, otherwise an RqliteEpochStore; report
false when the chosen constructor fails, otherwise hand the store to
the sequencers and report true. -/
def initSequencers (env : SequencerInitEnv) :
    Bool × Option EpochStoreBackend :=
  if env.epochStorePath ≠ "" then
    if env.fileCtorOk then (true, some .file) else (false, none)
  else
    if env.rqliteCtorOk then (true, some .rqlite) else (false, none)

/-- Outcomes of the other init steps run by the Server constructor,
in their source order around initSequencers. -/
structure ServerInitSteps where
  initListeners : Bool
  initStore : Bool
  logStorageShards : List ShardInput
  initStorageThreadPool : Bool
  initProcessor : Bool
  initFailureDetector : Bool
  startWorkers : Bool
  initNCM : Bool
  repopulateRecordCaches : Bool
  seqEnv : SequencerInitEnv
  initSequencerPlacement : Bool
  initRebuildingCoordinator : Bool
  initClusterMaintenanceStateMachine : Bool
  initLogStoreMonitor : Bool
  initUnreleasedRecordDetector : Bool
  initLogsConfigManager : Bool
  initAdminServer : Bool
  initThriftServers : Bool
  initRocksDBMetricsExport : Bool

/-- How the Server constructor ends: the server object is built, or
the process exits with EXIT_FAILURE. -/
inductive ServerStart where
  | running
  | exitFailure
  deriving DecidableEq, Repr

/-- Server::Server: the conjunction of all init steps; if any of them
reports false the constructor calls exit with EXIT_FAILURE. -/
def serverConstruct (s : ServerInitSteps) : ServerStart :=
  if s.initListeners && s.initStore &&
      (initLogStorageStateMap s.logStorageShards).2 &&
      s.initStorageThreadPool && s.initProcessor &&
      s.initFailureDetector && s.startWorkers && s.initNCM &&
      s.repopulateRecordCaches && (initSequencers s.seqEnv).1 &&
      s.initSequencerPlacement && s.initRebuildingCoordinator &&
      s.initClusterMaintenanceStateMachine && s.initLogStoreMonitor &&
      s.initUnreleasedRecordDetector && s.initLogsConfigManager &&
      s.initAdminServer && s.initThriftServers &&
      s.initRocksDBMetricsExport then
    .running
  else
    .exitFailure

/-! ### AdminAPIHandler::getReplicationInfo. -/

/-- Node location scopes, ordered from narrowest to biggest. -/
inductive LocationScope where
  | node
  | rack
  | row
  | cluster
  | dataCenter
  | region
  | root
  deriving DecidableEq, Repr

/-- Numeric rank of a location scope, increasing with size. -/
def LocationScope.rank : LocationScope → Nat
  | .node => 0
  | .rack => 1
  | .row => 2
  | .cluster => 3
  | .dataCenter => 4
  | .region => 5
  | .root => 6

/-- A ReplicationProperty: replication factors per distinct location
scope. -/
structure ReplicationProperty where
  factors : List (LocationScope × Nat)
  deriving Repr

/-- Modelled from the spec: ReplicationProperty's accessor
getDistinctReplicationFactors (its body is not part of the excerpt)
returns the replication factor for each distinct scope. -/
def ReplicationProperty.getDistinctReplicationFactors
    (p : ReplicationProperty) : List (LocationScope × Nat) :=
  p.factors

/-- Modelled from the spec: getBiggestReplicationScope returns the
biggest location scope that carries a replication factor. -/
def ReplicationProperty.getBiggestReplicationScope
    (p : ReplicationProperty) : LocationScope :=
  p.factors.foldl
    (fun acc x => if acc.rank < x.1.rank then x.1 else acc) .node

/-- Modelled from the spec: getReplication returns the replication
factor at the given scope (0 when the scope carries none). -/
def ReplicationProperty.getReplication (p : ReplicationProperty)
    (s : LocationScope) : Nat :=
  ((p.factors.find? (fun x => x.1 = s)).map (·.2)).getD 0

/-- Modelled from the spec: getReplicationFactor returns the smallest
overall replication factor. -/
def ReplicationProperty.getReplicationFactor
    (p : ReplicationProperty) : Nat :=
  match p.factors with
  | [] => 0
  | x :: xs => (xs.map (·.2)).foldl min x.2

/-- The local logs configuration, as consulted by getReplicationInfo:
its version and its narrowest replication property (derived by
logsconfig from the individual log attributes). -/
structure LogsConfig where
  version : Nat
  narrowestReplication : ReplicationProperty

/-- The server state visible to the getReplicationInfo handler. -/
structure AdminServerState where
  logsConfig : LogsConfig

/-- The thrift TolerableFailureDomain response part. -/
structure TolerableFailureDomain where
  domain : LocationScope
  count : Int
  deriving DecidableEq, Repr

/-- The thrift ReplicationInfo response. -/
structure ReplicationInfo where
  narrowestReplication : List (LocationScope × Nat)
  smallestReplicationFactor : Nat
  tolerableFailureDomains : TolerableFailureDomain
  version : Nat

/-- AdminAPIHandler::getReplicationInfo: build the response from the
narrowest replication property of the current logs configuration and
leave the server state untouched. -/
def getReplicationInfo (st : AdminServerState) :
    ReplicationInfo × AdminServerState :=
  let repl := st.logsConfig.narrowestReplication
  let biggest := repl.getBiggestReplicationScope
  (⟨repl.getDistinctReplicationFactors,
    repl.getReplicationFactor,
    ⟨biggest, (repl.getReplication biggest : Int) - 1⟩,
    st.logsConfig.version⟩,
   st)

/-! ### Epoch store conditional update and sequencer activation. -/

/-- Modelled from the spec: the Epoch Store's
createOrUpdateMetaData(logId, updater, expectedPriorState) primitive
(FileEpochStore and RqliteEpochStore bodies are not part of the
excerpt).  The store applies the pure updater atomically only if the
current state matches expectedPriorState, and fails with Conflict if
another actor updated first.  The epoch metadata for one log is
abstracted to its epoch number. -/
def casUpdate (store : Nat) (expected : Nat) (updater : Nat → Nat) :
    Nat × Bool :=
  if store = expected then (updater store, true) else (store, false)

/-- A set of concurrent activation attempts racing through the Epoch
Store, linearized in some order: each attempt carries the prior state
it read and performs one conditional update. -/
def runCas (store : Nat) (attempts : List Nat) (updater : Nat → Nat) :
    Nat × List Bool :=
  match attempts with
  | [] => (store, [])
  | e :: rest =>
    let r := casUpdate store e updater
    let rs := runCas r.1 rest updater
    (rs.1, r.2 :: rs.2)

/-- The epoch-bump updater used by sequencer activation: claim the
next epoch. -/
def bumpEpoch (e : Nat) : Nat := e + 1

/-! ### Checkpointed reader
(CheckpointedReaderBase.cpp and SyncCheckpointedReaderImpl.cpp). -/

/-- CheckpointedReaderBase_::syncWriteCheckpoints retry loop: attempts
gives the status of the i-th updateLSNSync call on the checkpoint
store; the loop keeps the status of the last attempt and stops early
on OK.  The result is the returned status paired with the number of
store calls made. -/
def syncWriteLoop (attempts : Nat → Status) (i : Nat) (fuel : Nat)
    (last : Status) : Status × Nat :=
  match fuel with
  | 0 => (last, i)
  | f + 1 =>
    let s := attempts i
    if s = .ok then (s, i + 1) else syncWriteLoop attempts (i + 1) f s

/-- CheckpointedReaderBase_::syncWriteCheckpoints: return_status
starts as Status::UNKNOWN and the store is called at most num_retries
times (int retries = 0; retries < options_.num_retries; retries++). -/
def syncWriteCheckpoints (numRetries : Int) (attempts : Nat → Status) :
    Status × Nat :=
  syncWriteLoop attempts 0 numRetries.toNat .unknown

/-- Result of SyncCheckpointedReaderImpl_::startReadingFromCheckpoint:
either reading was started at the given LSN, or the call returned -1
with err set to the given status. -/
inductive StartResult where
  | started (fromLsn : Nat)
  | error (err : Status)
  deriving DecidableEq, Repr

/-- SyncCheckpointedReaderImpl_::startReadingFromCheckpoint: st is the
status of the checkpoint store getLSNSync call and v the value it left
in the from variable (the saved checkpoint LSN when st is OK).  The
increment of the 64-bit from happens before the NOTFOUND check, which
overwrites from with the caller-supplied start; any status other than
OK and NOTFOUND sets err and returns -1 without starting reading. -/
def startReadingFromCheckpoint (st : Status) (v : Nat) (start : Nat) :
    StartResult :=
  let f0 := (v + 1) % 2 ^ 64
  let p := if st = .notfound then (start, Status.ok) else (f0, st)
  if p.2 = .ok then .started p.1 else .error p.2

/-- The startReadingFromCheckpoint overload without a start argument
delegates with start = LSN_INVALID. -/
def startReadingFromCheckpointNoStart (st : Status) (v : Nat) :
    StartResult :=
  startReadingFromCheckpoint st v LSN_INVALID

/-- The per-log last-read-LSN map of a checkpointed reader. -/
def LsnMap : Type := Nat → Option Nat

/-- CheckpointedReaderBase_::setLastLSNInMap: last_read_lsn_[log_id]
default-inserts LSN_INVALID when the entry is absent, and
insert_or_assign stores the maximum of that entry and the new LSN. -/
def setLastLSNInMap (m : LsnMap) (logId lsn : Nat) : LsnMap :=
  fun l => if l = logId then some (max ((m logId).getD 0) lsn) else m l

/-- SyncCheckpointedReaderImpl_::startReading erases the log's entry
from last_read_lsn_ before delegating to the underlying reader. -/
def startReadingErase (m : LsnMap) (logId : Nat) : LsnMap :=
  fun l => if l = logId then none else m l

/-- What one SyncCheckpointedReaderImpl_::read call delivered: a batch
of records (their log and LSN, when nread is non-negative) or a gap
(when nread is negative). -/
inductive ReadOutcome where
  | records (recs : List (Nat × Nat))
  | gap (logId : Nat) (hi : Nat)
  deriving Repr

/-- The map update performed by SyncCheckpointedReaderImpl_::read:
each delivered record's LSN is recorded, and the upper bound of a
delivered gap is recorded unless it is LSN_MAX. -/
def readUpdate (m : LsnMap) (o : ReadOutcome) : LsnMap :=
  match o with
  | .records recs => recs.foldl (fun acc r => setLastLSNInMap acc r.1 r.2) m
  | .gap logId hi => if hi = LSN_MAX then m else setLastLSNInMap m logId hi

/-- The map after a sequence of read calls. -/
def readSeq (m : LsnMap) (os : List ReadOutcome) : LsnMap :=
  os.foldl readUpdate m

/-! ## Theorems -/

/-- C1 fails as stated: on the Maintenance Log state machine a
snapshot callback status of E::UPTODATE — the status of a repeated
takeSnapshot with an already satisfied minVersion — is surfaced as an
OperationError, not treated as success.  Concretely, with the state
machine enabled, snapshotting on, version 5, fully replayed and
callback status UPTODATE, takeSnapshot(5) yields OperationError. -/
theorem claim_C1_counterexample :
    takeMaintenanceLogSnapshot ⟨true, true, 5, true, .uptodate⟩ 5 =
      .operationError .uptodate ∧
    SnapshotResult.operationError .uptodate ≠ .success := by
  decide

/-- C1 amended: for the Event Log (log tree) state machine a
takeSnapshot whose underlying snapshot callback reports E::UPTODATE —
in particular a second takeSnapshot with the same minVersion after a
first success, whose callback status is UPTODATE — completes
successfully as an idempotent no-op; for the Maintenance Log state
machine the same UPTODATE callback status is surfaced as an
OperationError, since only E::OK is treated as success there. -/
theorem claim_C1_amended (ver minV : Nat) (s : RsmState)
    (hver : ¬(minV > 0 ∧ ver < minV)) :
    takeLogTreeSnapshot ⟨true, true, ver, true, .uptodate⟩ minV =
      .success ∧
    takeMaintenanceLogSnapshot ⟨true, true, ver, true, .uptodate⟩ minV =
      .operationError .uptodate ∧
    (rsmSnapshot (rsmSnapshot s).1).2 = .uptodate := by
  have hb : (decide (minV > 0) && decide (ver < minV)) = false := by
    rcases Nat.lt_or_ge 0 minV with h0 | h0
    · have : ¬ ver < minV := fun hlt => hver ⟨h0, hlt⟩
      simp [this]
    · have : ¬ minV > 0 := by omega
      simp [this]
  refine ⟨?_, ?_, ?_⟩
  · simp [takeLogTreeSnapshot, hb, logTreeSnapshotCompletion]
  · simp [takeMaintenanceLogSnapshot, hb, maintenanceSnapshotCompletion]
  · by_cases h : s.version ≤ s.snapshotVersion
    · simp [rsmSnapshot, h]
    · simp [rsmSnapshot, h]

/-- Witness for claim_C1_amended at ver = 7, minV = 7, an RSM at
version 7 with no snapshot yet. -/
theorem claim_C1_amended_witness :
    takeLogTreeSnapshot ⟨true, true, 7, true, .uptodate⟩ 7 = .success ∧
    takeMaintenanceLogSnapshot ⟨true, true, 7, true, .uptodate⟩ 7 =
      .operationError .uptodate ∧
    (rsmSnapshot (rsmSnapshot ⟨7, 0⟩).1).2 = .uptodate :=
  claim_C1_amended 7 7 ⟨7, 0⟩ (by omega)

/-- C2 fails as stated: the two handlers order the NODE_NOT_READY and
STALE_VERSION rejections differently, so in the region where both
apply (not fully replayed and current version below minVersion), the
log tree handler reports STALE_VERSION where the claim demands
NODE_NOT_READY, and the maintenance handler reports NODE_NOT_READY
where the claim demands STALE_VERSION.  Concretely at version 1, not
fully replayed, minVersion 2. -/
theorem claim_C2_counterexample :
    takeLogTreeSnapshot ⟨true, true, 1, false, .ok⟩ 2 =
      .staleVersion 1 ∧
    takeMaintenanceLogSnapshot ⟨true, true, 1, false, .ok⟩ 2 =
      .nodeNotReady ∧
    SnapshotResult.staleVersion 1 ≠ .nodeNotReady := by
  decide

/-- C2 amended: for the log tree handler the STALE_VERSION rejection
(minVersion > 0 and current version strictly below it, carrying the
server's current version) is checked before the fully-replayed check,
and NODE_NOT_READY is returned when the version check passes but the
log is not fully replayed; for the maintenance handler the order is
reversed: NODE_NOT_READY whenever the state machine has not fully
replayed, and STALE_VERSION only when fully replayed with a stale
version.  For both, when neither rejection applies, a snapshot write
is triggered and its completion status is reported to the caller
through the handler's completion callback. -/
theorem claim_C2_amended (ver minV : Nat) (loaded : Bool) (st : Status) :
    (minV > 0 ∧ ver < minV →
      takeLogTreeSnapshot ⟨true, true, ver, loaded, st⟩ minV =
        .staleVersion ver) ∧
    (¬(minV > 0 ∧ ver < minV) → loaded = false →
      takeLogTreeSnapshot ⟨true, true, ver, loaded, st⟩ minV =
        .nodeNotReady) ∧
    (loaded = false →
      takeMaintenanceLogSnapshot ⟨true, true, ver, loaded, st⟩ minV =
        .nodeNotReady) ∧
    (loaded = true → minV > 0 ∧ ver < minV →
      takeMaintenanceLogSnapshot ⟨true, true, ver, loaded, st⟩ minV =
        .staleVersion ver) ∧
    (loaded = true → ¬(minV > 0 ∧ ver < minV) →
      takeLogTreeSnapshot ⟨true, true, ver, loaded, st⟩ minV =
        logTreeSnapshotCompletion st ∧
      takeMaintenanceLogSnapshot ⟨true, true, ver, loaded, st⟩ minV =
        maintenanceSnapshotCompletion st) := by
  refine ⟨?_, ?_, ?_, ?_, ?_⟩
  · rintro ⟨h0, hlt⟩
    simp [takeLogTreeSnapshot, h0, hlt]
  · intro hver hl
    have hb : (decide (minV > 0) && decide (ver < minV)) = false := by
      rcases Nat.lt_or_ge 0 minV with h0 | h0
      · have : ¬ ver < minV := fun hlt => hver ⟨h0, hlt⟩
        simp [this]
      · have : ¬ minV > 0 := by omega
        simp [this]
    simp [takeLogTreeSnapshot, hb, hl]
  · intro hl
    simp [takeMaintenanceLogSnapshot, hl]
  · rintro hl ⟨h0, hlt⟩
    simp [takeMaintenanceLogSnapshot, hl, h0, hlt]
  · intro hl hver
    have hb : (decide (minV > 0) && decide (ver < minV)) = false := by
      rcases Nat.lt_or_ge 0 minV with h0 | h0
      · have : ¬ ver < minV := fun hlt => hver ⟨h0, hlt⟩
        simp [this]
      · have : ¬ minV > 0 := by omega
        simp [this]
    constructor
    · simp [takeLogTreeSnapshot, hb, hl]
    · simp [takeMaintenanceLogSnapshot, hb, hl]

/-- Witness for claim_C2_amended at version 1, not fully replayed,
minVersion 2 and callback status OK. -/
theorem claim_C2_amended_witness :
    takeLogTreeSnapshot ⟨true, true, 1, false, .ok⟩ 2 =
      .staleVersion 1 := by
  have h := claim_C2_amended 1 2 false .ok
  exact h.1 (by omega)

/-- Helper for C3: unfolded form of the shard population task result
flags, by cases on the three traversal return values. -/
theorem processShard_flags (inp : ShardInput) :
    (processShard inp).switchedToFailing =
      (shardHadTraversalError inp && inp.switchOk) ∧
    (processShard inp).taskOk =
      (!shardHadTraversalError inp || inp.switchOk) := by
  cases inp with
  | mk trimRecs trimOk lceRecs lceOk lrRecs lrOk switchOk =>
    cases trimOk <;> cases lceOk <;> cases lrOk <;> cases switchOk <;>
      simp [processShard, shardFinish, shardHadTraversalError]

/-- C3: startup population runs one task per shard; a shard whose
metadata traversal errors is switched to the failing backend exactly
when the switch succeeds, the task fails exactly when a traversal
errored and the switch to the failing backend failed, and the overall
population fails exactly when some shard is in that situation — in
particular malformed per-log metadata (which only poisons individual
LogStorageState entries) never fails a task or the startup. -/
theorem claim_C3 :
    (∀ inp : ShardInput,
      (processShard inp).switchedToFailing =
        (shardHadTraversalError inp && inp.switchOk)) ∧
    (∀ inp : ShardInput,
      (processShard inp).taskOk =
        (!shardHadTraversalError inp || inp.switchOk)) ∧
    (∀ shards : List ShardInput,
      ((initLogStorageStateMap shards).2 = false ↔
        ∃ s ∈ shards,
          shardHadTraversalError s = true ∧ s.switchOk = false)) := by
  refine ⟨fun inp => (processShard_flags inp).1,
          fun inp => (processShard_flags inp).2, fun shards => ?_⟩
  constructor
  · intro h
    by_contra hc
    push_neg at hc
    have hall : ∀ o ∈ shards.map processShard, o.taskOk = true := by
      intro o ho
      rcases List.mem_map.mp ho with ⟨s, hs, rfl⟩
      rw [(processShard_flags s).2]
      cases he : shardHadTraversalError s
      · rfl
      · have hw := hc s hs he
        have hw' : s.switchOk = true := by
          cases hww : s.switchOk
          · exact absurd hww hw
          · rfl
        rw [hw']
        rfl
    have : (initLogStorageStateMap shards).2 = true := by
      simpa [initLogStorageStateMap, List.all_eq_true] using hall
    rw [h] at this
    exact Bool.false_ne_true this
  · rintro ⟨s, hs, he, hw⟩
    have ht : (processShard s).taskOk = false := by
      rw [(processShard_flags s).2, he, hw]
      rfl
    cases hall : (initLogStorageStateMap shards).2
    · rfl
    · exfalso
      have := (List.all_eq_true.mp
        (by simpa [initLogStorageStateMap] using hall))
        (processShard s) (List.mem_map_of_mem processShard hs)
      rw [ht] at this
      exact Bool.false_ne_true this

/-- Helper for C4: a traversal callback hitting a log whose state
already has a permanent error leaves the whole map unchanged. -/
theorem traverseCallback_poisoned_eq {m : ShardMap} {r : MetaRecord}
    {st : LogState} (k : MetaKind) (hm : m r.logId = some st)
    (hp : st.permanentError = true) :
    traverseCallback k m r = m := by
  funext l
  simp only [traverseCallback, hm, Option.getD_some, hp, if_true]
  simp only [ShardMap.insertOrGet, hm, Option.getD_some]
  split
  · next hl => rw [hl, hm]
  · rfl

/-- Helper for C4: any traversal callback preserves a poisoned entry
verbatim. -/
theorem traverseCallback_preserves_poisoned {m : ShardMap}
    {r : MetaRecord} {logId : Nat} {st : LogState} (k : MetaKind)
    (hm : m logId = some st) (hp : st.permanentError = true) :
    traverseCallback k m r logId = some st := by
  by_cases hl : r.logId = logId
  · subst hl
    rw [traverseCallback_poisoned_eq k hm hp, hm]
  · simp only [traverseCallback]
    split
    · simp only [ShardMap.insertOrGet]
      rw [if_neg (fun h => hl h.symm), hm]
    · cases r.status <;>
        · simp only [ShardMap.set, ShardMap.insertOrGet]
          rw [if_neg (fun h => hl h.symm), if_neg (fun h => hl h.symm), hm]

/-- C4: during startup population, once a log's state on a shard is
poisoned by notePermanentError — which the traversal callback records
exactly when a record for a not-yet-poisoned log is delivered with
status MALFORMED_RECORD — a single delivered record for that log
leaves the whole map untouched, and an arbitrary remainder of the
traversal leaves the poisoned entry (trim point, last clean epoch,
last released LSN and flag) exactly as it was. -/
theorem claim_C4 :
    (∀ (k : MetaKind) (m : ShardMap) (r : MetaRecord) (st : LogState),
      m r.logId = some st → st.permanentError = true →
      traverseCallback k m r = m) ∧
    (∀ (k : MetaKind) (recs : List MetaRecord) (m : ShardMap)
        (logId : Nat) (st : LogState),
      m logId = some st → st.permanentError = true →
      traverseShard k m recs logId = some st) ∧
    (∀ (k : MetaKind) (m : ShardMap) (r : MetaRecord),
      ((m r.logId).getD LogState.initial).permanentError = false →
      ((((traverseCallback k m r) r.logId).getD
          LogState.initial).permanentError = true ↔
        r.status = .malformedRecord)) := by
  refine ⟨fun k m r st hm hp => traverseCallback_poisoned_eq k hm hp,
          fun k recs => ?_, fun k m r hp => ?_⟩
  · induction recs with
    | nil => intro m logId st hm _; simpa [traverseShard] using hm
    | cons r rest ih =>
      intro m logId st hm hp
      have step := traverseCallback_preserves_poisoned (r := r) k hm hp
      simpa [traverseShard] using ih (traverseCallback k m r) logId st step hp
  · simp only [traverseCallback, hp, if_false, Bool.false_eq_true]
    cases hst : r.status
    · have happ : ∀ v,
          (((m r.logId).getD LogState.initial).applyUpdate
            k v).permanentError = false := by
        intro v
        cases k <;> simp [LogState.applyUpdate, hp]

      simp [ShardMap.set, happ]
    · simp [ShardMap.set, LogState.notePermanentError]

/-- Witness for claim_C4: a log 1 poisoned at state
trim 3, lce 2, last released 5 ignores further records, and a
malformed record for fresh log 2 poisons it. -/
theorem claim_C4_witness :
    traverseCallback .trimPoint
        (fun l => if l = 1 then some ⟨3, 2, 5, true⟩ else none)
        ⟨1, .ok, 9⟩ =
      (fun l => if l = 1 then some ⟨3, 2, 5, true⟩ else none) ∧
    traverseShard .lastClean
        (fun l => if l = 1 then some ⟨3, 2, 5, true⟩ else none)
        [⟨1, .ok, 9⟩, ⟨1, .malformedRecord, 4⟩] 1 = some ⟨3, 2, 5, true⟩ ∧
    ((((traverseCallback .trimPoint (fun _ => none)
          ⟨2, .malformedRecord, 7⟩) 2).getD
        LogState.initial).permanentError = true ↔
      MetaRecord.status ⟨2, .malformedRecord, 7⟩ = .malformedRecord) :=
  ⟨claim_C4.1 .trimPoint _ ⟨1, .ok, 9⟩ ⟨3, 2, 5, true⟩ rfl rfl,
   claim_C4.2.1 .lastClean _ _ 1 ⟨3, 2, 5, true⟩ rfl rfl,
   claim_C4.2.2 .trimPoint _ ⟨2, .malformedRecord, 7⟩ rfl⟩

/-- C5: the epoch store backend is selected at configuration time —
the file-based store is used exactly when epoch-store-path is
non-empty, the rqlite-backed store otherwise; a failed constructor of
the selected backend makes initSequencers report failure; and a failed
initSequencers makes the Server constructor exit the process with
EXIT_FAILURE instead of serving. -/
theorem claim_C5 :
    (∀ env : SequencerInitEnv, (initSequencers env).1 = true →
      (((initSequencers env).2 = some .file ↔
          env.epochStorePath ≠ "") ∧
        ((initSequencers env).2 = some .rqlite ↔
          env.epochStorePath = ""))) ∧
    (∀ env : SequencerInitEnv,
      (env.epochStorePath ≠ "" → env.fileCtorOk = false →
        (initSequencers env).1 = false) ∧
      (env.epochStorePath = "" → env.rqliteCtorOk = false →
        (initSequencers env).1 = false)) ∧
    (∀ s : ServerInitSteps, (initSequencers s.seqEnv).1 = false →
      serverConstruct s = .exitFailure) := by
  refine ⟨fun env hok => ?_, fun env => ⟨fun hp hf => ?_, fun hp hf => ?_⟩,
          fun s hfail => ?_⟩
  · by_cases hp : env.epochStorePath = ""
    · cases hr : env.rqliteCtorOk <;>
        simp [initSequencers, hp, hr] at hok ⊢
    · cases hf : env.fileCtorOk <;>
        simp [initSequencers, hp, hf] at hok ⊢
  · simp [initSequencers, hp, hf]
  · simp [initSequencers, hp, hf]
  · simp [serverConstruct, hfail]

/-- Witness for claim_C5: with an empty epoch-store-path and a failing
rqlite constructor, initSequencers fails and the server exits. -/
theorem claim_C5_witness :
    (initSequencers ⟨"", true, false⟩).1 = false ∧
    (initSequencers ⟨"store", true, true⟩).2 = some .file ∧
    serverConstruct
        ⟨true, true, [], true, true, true, true, true, true,
          ⟨"", true, false⟩, true, true, true, true, true, true, true,
          true, true⟩ =
      .exitFailure := by
  have hsel := (claim_C5.1 ⟨"store", true, true⟩ (by simp [initSequencers])).1
  have hfail := (claim_C5.2.1 ⟨"", true, false⟩).2 rfl rfl
  refine ⟨hfail, hsel.mpr (by simp), ?_⟩
  exact claim_C5.2.2 _ hfail

/-- Helper: a left fold of min is bounded by its initial value. -/
theorem foldl_min_le_init (xs : List Nat) (a : Nat) :
    xs.foldl min a ≤ a := by
  induction xs generalizing a with
  | nil => simp
  | cons x xs ih => exact le_trans (ih (min a x)) (min_le_left a x)

/-- Helper: a left fold of min is bounded by every list element. -/
theorem foldl_min_le_mem (xs : List Nat) (a x : Nat) (hx : x ∈ xs) :
    xs.foldl min a ≤ x := by
  induction xs generalizing a with
  | nil => cases hx
  | cons y ys ih =>
    rcases List.mem_cons.mp hx with rfl | h
    · exact le_trans (foldl_min_le_init ys (min a x)) (min_le_right a x)
    · exact ih (min a y) h

/-- Helper: the biggest-scope fold never shrinks the accumulator. -/
theorem foldl_biggest_ge_init (xs : List (LocationScope × Nat))
    (acc : LocationScope) :
    acc.rank ≤
      (xs.foldl (fun a x => if a.rank < x.1.rank then x.1 else a)
        acc).rank := by
  induction xs generalizing acc with
  | nil => simp
  | cons y ys ih =>
    refine le_trans ?_ (ih _)
    by_cases h : acc.rank < y.1.rank
    · simp only [h, if_true]
      exact le_of_lt h
    · simp only [h, if_false]
      exact le_refl _

/-- Helper: the biggest-scope fold dominates every listed scope. -/
theorem foldl_biggest_ge_mem (xs : List (LocationScope × Nat))
    (acc : LocationScope) (x : LocationScope × Nat) (hx : x ∈ xs) :
    x.1.rank ≤
      (xs.foldl (fun a x => if a.rank < x.1.rank then x.1 else a)
        acc).rank := by
  induction xs generalizing acc with
  | nil => cases hx
  | cons y ys ih =>
    rcases List.mem_cons.mp hx with rfl | h
    · refine le_trans ?_ (foldl_biggest_ge_init ys _)
      by_cases hacc : acc.rank < x.1.rank
      · simp [hacc]
      · simp only [hacc, if_false]
        exact Nat.le_of_not_lt hacc
    · exact ih _ h

/-- C6: getReplicationInfo leaves the server state untouched and its
response is derived from the narrowest replication property of the
current logs configuration: the per-scope distinct replication
factors, the smallest overall replication factor (a lower bound of
every listed factor), and a tolerable failure domain whose scope is
the biggest replication scope (its rank dominates every listed scope)
and whose count is the replication factor at that scope minus one. -/
theorem claim_C6 :
    (∀ st : AdminServerState, (getReplicationInfo st).2 = st) ∧
    (∀ st : AdminServerState,
      (getReplicationInfo st).1.narrowestReplication =
        st.logsConfig.narrowestReplication.getDistinctReplicationFactors ∧
      (getReplicationInfo st).1.smallestReplicationFactor =
        st.logsConfig.narrowestReplication.getReplicationFactor ∧
      (getReplicationInfo st).1.tolerableFailureDomains.domain =
        st.logsConfig.narrowestReplication.getBiggestReplicationScope ∧
      (getReplicationInfo st).1.tolerableFailureDomains.count =
        (st.logsConfig.narrowestReplication.getReplication
          (st.logsConfig.narrowestReplication.getBiggestReplicationScope) :
            Int) - 1 ∧
      (getReplicationInfo st).1.version = st.logsConfig.version) ∧
    (∀ (st : AdminServerState) (x : LocationScope × Nat),
      x ∈ st.logsConfig.narrowestReplication.factors →
      (getReplicationInfo st).1.smallestReplicationFactor ≤ x.2 ∧
      x.1.rank ≤
        (getReplicationInfo st).1.tolerableFailureDomains.domain.rank) := by
  refine ⟨fun st => rfl,
          fun st => ⟨rfl, rfl, rfl, rfl, rfl⟩,
          fun st x hx => ⟨?_, ?_⟩⟩
  · show st.logsConfig.narrowestReplication.getReplicationFactor ≤ x.2
    unfold ReplicationProperty.getReplicationFactor
    rcases hf : st.logsConfig.narrowestReplication.factors with _ | ⟨y, ys⟩
    · rw [hf] at hx
      cases hx
    · rw [hf] at hx
      rcases List.mem_cons.mp hx with rfl | h
      · exact foldl_min_le_init _ _
      · exact foldl_min_le_mem _ _ _ (List.mem_map_of_mem (·.2) h)
  · show x.1.rank ≤
      (st.logsConfig.narrowestReplication.getBiggestReplicationScope).rank
    exact foldl_biggest_ge_mem _ _ _ hx

/-- Witness for claim_C6 on a property replicating across 2 racks and
3 nodes: the rack scope is dominated by the biggest scope. -/
theorem claim_C6_witness :
    (getReplicationInfo
        ⟨⟨4, ⟨[(.rack, 2), (.node, 3)]⟩⟩⟩).1.smallestReplicationFactor ≤ 2 ∧
    LocationScope.rank .rack ≤
      (getReplicationInfo
        ⟨⟨4, ⟨[(.rack, 2), (.node, 3)]⟩⟩⟩).1.tolerableFailureDomains.domain.rank :=
  claim_C6.2.2 ⟨⟨4, ⟨[(.rack, 2), (.node, 3)]⟩⟩⟩ (.rack, 2)
    (List.mem_cons_self _ _)

/-- Helper for C7: a conditional update whose expected prior state no
longer matches the store leaves the store unchanged and reports a
conflict, for a whole list of such attempts. -/
theorem runCas_all_conflict (upd : Nat → Nat) (n s e : Nat)
    (h : s ≠ e) :
    runCas s (List.replicate n e) upd = (s, List.replicate n false) := by
  induction n with
  | zero => rfl
  | succ k ih =>
    simp only [List.replicate_succ, runCas, casUpdate, if_neg h, ih]

/-- C7: among any number of concurrent sequencer activation attempts
that all read the same current epoch e0 and race their conditional
epoch-bump updates through the Epoch Store in some linearization
order, exactly the first one succeeds and every other attempt observes
a conflict; the store ends at the bumped epoch claimed by the single
winner. -/
theorem claim_C7 (e0 n : Nat) :
    (runCas e0 (List.replicate (n + 1) e0) bumpEpoch).2 =
      true :: List.replicate n false ∧
    ((runCas e0 (List.replicate (n + 1) e0) bumpEpoch).2.count true =
      1) ∧
    (runCas e0 (List.replicate (n + 1) e0) bumpEpoch).1 = e0 + 1 := by
  have hne : bumpEpoch e0 ≠ e0 := Nat.succ_ne_self e0
  have hrest := runCas_all_conflict bumpEpoch n (bumpEpoch e0) e0 hne
  have hrun : runCas e0 (List.replicate (n + 1) e0) bumpEpoch =
      (bumpEpoch e0, true :: List.replicate n false) := by
    simp only [List.replicate_succ, runCas, casUpdate, if_pos rfl, hrest,
      if_true]
  refine ⟨by rw [hrun], ?_, by rw [hrun]; rfl⟩
  rw [hrun]
  simp [List.count_cons, List.count_replicate]

/-- Helper for C8: one unfolding step of the retry loop. -/
theorem syncWriteLoop_succ (attempts : Nat → Status) (i f : Nat)
    (last : Status) :
    syncWriteLoop attempts i (f + 1) last =
      if attempts i = .ok then (attempts i, i + 1)
      else syncWriteLoop attempts (i + 1) f (attempts i) := rfl

/-- Helper for C8: the retry loop makes at most fuel further store
calls. -/
theorem syncWriteLoop_calls_le (attempts : Nat → Status) :
    ∀ (fuel i : Nat) (last : Status),
      (syncWriteLoop attempts i fuel last).2 ≤ i + fuel := by
  intro fuel
  induction fuel with
  | zero => intro i last; simp [syncWriteLoop]
  | succ f ih =>
    intro i last
    rw [syncWriteLoop_succ]
    by_cases h : attempts i = .ok
    · rw [if_pos h]
      show i + 1 ≤ i + (f + 1)
      omega
    · rw [if_neg h]
      have := ih (i + 1) (attempts i)
      omega

/-- Helper for C8: when every attempt in range fails, the loop runs to
exhaustion and keeps the status of the last attempt. -/
theorem syncWriteLoop_all_fail (attempts : Nat → Status) :
    ∀ (f i : Nat) (last : Status),
      (∀ j, j < i + f + 1 → attempts j ≠ .ok) →
      syncWriteLoop attempts i (f + 1) last =
        (attempts (i + f), i + f + 1) := by
  intro f
  induction f with
  | zero =>
    intro i last h
    have hi : attempts i ≠ .ok := h i (by omega)
    rw [syncWriteLoop_succ, if_neg hi]
    rfl
  | succ f ih =>
    intro i last h
    have hi : attempts i ≠ .ok := h i (by omega)
    rw [syncWriteLoop_succ, if_neg hi]
    have heq := ih (i + 1) (attempts i) (fun j hj => h j (by omega))
    rw [heq]
    have h1 : i + 1 + f = i + (f + 1) := by omega
    rw [h1]

/-- Helper for C8: the loop stops with OK right after the first
successful attempt. -/
theorem syncWriteLoop_first_ok (attempts : Nat → Status) :
    ∀ (f i : Nat) (last : Status) (j : Nat),
      i ≤ j → j < i + f → attempts j = .ok →
      (∀ k, i ≤ k → k < j → attempts k ≠ .ok) →
      syncWriteLoop attempts i f last = (.ok, j + 1) := by
  intro f
  induction f with
  | zero => intro i last j h1 h2 _ _; omega
  | succ f ih =>
    intro i last j h1 h2 hj hmin
    by_cases hi : attempts i = .ok
    · have hij : j = i := by
        by_contra hne
        exact hmin i (le_refl i) (by omega) hi
      subst hij
      rw [syncWriteLoop_succ, if_pos hi, hi]
    · have hij : i + 1 ≤ j := by
        rcases Nat.eq_or_lt_of_le h1 with rfl | h
        · exact absurd hj hi
        · omega
      rw [syncWriteLoop_succ, if_neg hi]
      exact ih (i + 1) (attempts i) j hij (by omega) hj
        (fun k hk1 hk2 => hmin k (by omega) hk2)

/-- C8: syncWriteCheckpoints calls the checkpoint store at most
num_retries times; with num_retries at most zero it returns
Status::UNKNOWN without any store call; it returns OK right after the
first successful attempt; and when every allowed attempt fails it
returns the status of the last attempt after exactly num_retries
calls. -/
theorem claim_C8 (numRetries : Int) (attempts : Nat → Status) :
    (syncWriteCheckpoints numRetries attempts).2 ≤ numRetries.toNat ∧
    (numRetries ≤ 0 →
      syncWriteCheckpoints numRetries attempts = (.unknown, 0)) ∧
    (∀ j, j < numRetries.toNat → attempts j = .ok →
      (∀ k, k < j → attempts k ≠ .ok) →
      syncWriteCheckpoints numRetries attempts = (.ok, j + 1)) ∧
    (0 < numRetries → (∀ j, j < numRetries.toNat → attempts j ≠ .ok) →
      syncWriteCheckpoints numRetries attempts =
        (attempts (numRetries.toNat - 1), numRetries.toNat)) := by
  refine ⟨?_, fun h => ?_, fun j hj hok hmin => ?_, fun hpos hfail => ?_⟩
  · have := syncWriteLoop_calls_le attempts numRetries.toNat 0 .unknown
    simpa [syncWriteCheckpoints] using this
  · have h0 : numRetries.toNat = 0 := Int.toNat_of_nonpos h
    simp [syncWriteCheckpoints, h0, syncWriteLoop]
  · exact syncWriteLoop_first_ok attempts numRetries.toNat 0 .unknown j
      (Nat.zero_le j) (by omega) hok (fun k _ hk => hmin k hk)
  · obtain ⟨f, hf⟩ : ∃ f, numRetries.toNat = f + 1 := by
      have : 0 < numRetries.toNat := by omega
      exact ⟨numRetries.toNat - 1, by omega⟩
    rw [syncWriteCheckpoints, hf]
    rw [syncWriteLoop_all_fail attempts f 0 .unknown
      (fun j hj => hfail j (by omega))]
    have h2 : (0 : Nat) + f + 1 = f + 1 := by omega
    have h1 : (0 : Nat) + f = f + 1 - 1 := by omega
    rw [h2, h1]

/-- Witness for claim_C8: three retries against a store that fails
once then succeeds stop after the second call with OK; two retries
against an always-failing store end with the last failure; a
non-positive retry budget returns UNKNOWN untouched. -/
theorem claim_C8_witness :
    syncWriteCheckpoints 3
        (fun i => if i = 1 then .ok else .failed) = (.ok, 2) ∧
    syncWriteCheckpoints 2 (fun _ => .failed) = (.failed, 2) ∧
    syncWriteCheckpoints (-2) (fun _ => .ok) = (.unknown, 0) := by
  refine ⟨?_, ?_, ?_⟩
  · exact (claim_C8 3 _).2.2.1 1 (by decide) (by decide)
      (fun k hk => by
        have : k = 0 := by omega
        subst this
        decide)
  · exact (claim_C8 2 _).2.2.2 (by decide) (fun j _ => by decide)
  · exact (claim_C8 (-2) _).2.1 (by decide)

/-- C9: startReadingFromCheckpoint starts reading from the LSN after
the saved checkpoint when the store returns OK (the 64-bit increment
of the checkpoint; strictly beyond the checkpoint whenever it is below
LSN_MAX, so the checkpointed record is not redelivered), starts from
the caller-supplied start LSN when the store returns NOTFOUND (the
overload without a start argument using LSN_INVALID), and for any
other store status starts no reading, returning -1 with err set to
that status. -/
theorem claim_C9 (c v start : Nat) :
    (startReadingFromCheckpoint .ok c start =
      .started ((c + 1) % 2 ^ 64)) ∧
    (c < LSN_MAX → startReadingFromCheckpoint .ok c start =
      .started (c + 1) ∧ c < c + 1) ∧
    (startReadingFromCheckpoint .notfound v start = .started start) ∧
    (startReadingFromCheckpointNoStart .notfound v =
      .started LSN_INVALID) ∧
    (∀ st : Status, st ≠ .ok → st ≠ .notfound →
      startReadingFromCheckpoint st v start = .error st) := by
  refine ⟨?_, fun hc => ⟨?_, Nat.lt_succ_self c⟩, ?_, ?_,
          fun st h1 h2 => ?_⟩
  · simp [startReadingFromCheckpoint]
  · have hlt : c + 1 < 2 ^ 64 := by
      have h64 : LSN_MAX = 2 ^ 64 - 1 := rfl
      rw [h64] at hc
      have hpos : 0 < 2 ^ 64 := Nat.pos_pow_of_pos 64 (by omega)
      omega
    simp only [startReadingFromCheckpoint]
    rw [Nat.mod_eq_of_lt hlt]
    simp
  · simp [startReadingFromCheckpoint]
  · simp [startReadingFromCheckpointNoStart, startReadingFromCheckpoint]
  · simp [startReadingFromCheckpoint, h1, h2]

/-- Witness for claim_C9 at checkpoint 5: reading resumes at 6 on OK,
at the supplied start 3 on NOTFOUND, and a SHUTDOWN store status
surfaces as the error result. -/
theorem claim_C9_witness :
    startReadingFromCheckpoint .ok 5 3 = .started 6 ∧
    startReadingFromCheckpoint .notfound 5 3 = .started 3 ∧
    startReadingFromCheckpoint .shutdown 5 3 = .error .shutdown := by
  refine ⟨((claim_C9 5 5 3).2.1 ?_).1, (claim_C9 5 5 3).2.2.1,
          (claim_C9 5 5 3).2.2.2.2 .shutdown (by decide) (by decide)⟩
  show (5 : Nat) < 2 ^ 64 - 1
  norm_num

/-- The pointwise order between last-read-LSN maps: every entry of the
first is present in the second at a value at least as large. -/
def LsnMapLe (m m' : LsnMap) : Prop :=
  ∀ l v, m l = some v → ∃ v', m' l = some v' ∧ v ≤ v'

/-- Helper for C10: LsnMapLe is reflexive. -/
theorem LsnMapLe.rfl (m : LsnMap) : LsnMapLe m m :=
  fun _ v h => ⟨v, h, le_refl v⟩

/-- Helper for C10: LsnMapLe is transitive. -/
theorem LsnMapLe.trans {a b c : LsnMap} (h1 : LsnMapLe a b)
    (h2 : LsnMapLe b c) : LsnMapLe a c := by
  intro l v hv
  obtain ⟨v1, hb, hv1⟩ := h1 l v hv
  obtain ⟨v2, hc, hv2⟩ := h2 l v1 hb
  exact ⟨v2, hc, le_trans hv1 hv2⟩

/-- Helper for C10: setLastLSNInMap only grows the map. -/
theorem setLastLSNInMap_le (m : LsnMap) (logId lsn : Nat) :
    LsnMapLe m (setLastLSNInMap m logId lsn) := by
  intro l v hv
  by_cases hl : l = logId
  · subst hl
    refine ⟨max ((m l).getD 0) lsn, by simp [setLastLSNInMap], ?_⟩
    rw [hv]
    exact le_max_of_le_left (le_refl v)
  · exact ⟨v, by simp [setLastLSNInMap, hl, hv], le_refl v⟩

/-- Helper for C10: recording a batch of delivered records only grows
the map. -/
theorem foldl_records_le (recs : List (Nat × Nat)) :
    ∀ m : LsnMap,
      LsnMapLe m
        (recs.foldl (fun acc r => setLastLSNInMap acc r.1 r.2) m) := by
  induction recs with
  | nil => intro m; exact LsnMapLe.rfl m
  | cons r rest ih =>
    intro m
    exact LsnMapLe.trans (setLastLSNInMap_le m r.1 r.2)
      (by simpa using ih (setLastLSNInMap m r.1 r.2))

/-- Helper for C10: one read call only grows the map. -/
theorem readUpdate_le (m : LsnMap) (o : ReadOutcome) :
    LsnMapLe m (readUpdate m o) := by
  cases o with
  | records recs => exact foldl_records_le recs m
  | gap logId hi =>
    by_cases h : hi = LSN_MAX
    · simp [readUpdate, h]
      exact LsnMapLe.rfl m
    · simp [readUpdate, h]
      exact setLastLSNInMap_le m logId hi

/-- Helper for C10: a sequence of read calls only grows the map. -/
theorem readSeq_le (os : List ReadOutcome) :
    ∀ m : LsnMap, LsnMapLe m (readSeq m os) := by
  induction os with
  | nil => intro m; exact LsnMapLe.rfl m
  | cons o rest ih =>
    intro m
    exact LsnMapLe.trans (readUpdate_le m o)
      (by simpa [readSeq] using ih (readUpdate m o))

/-- C10: the last-read-LSN map is monotone — setLastLSNInMap stores
the maximum of the existing entry (absent reading as LSN_INVALID) and
the new LSN; any sequence of read calls (recording delivered record
LSNs and non-LSN_MAX gap upper bounds) never decreases or removes a
log's entry; and only startReading removes an entry, leaving the other
logs untouched. -/
theorem claim_C10 :
    (∀ (m : LsnMap) (logId lsn : Nat),
      setLastLSNInMap m logId lsn logId =
        some (max ((m logId).getD 0) lsn)) ∧
    (∀ (m : LsnMap) (os : List ReadOutcome) (logId v : Nat),
      m logId = some v →
      ∃ v', readSeq m os logId = some v' ∧ v ≤ v') ∧
    (∀ (m : LsnMap) (os : List ReadOutcome) (logId : Nat),
      (m logId).getD 0 ≤ (readSeq m os logId).getD 0) ∧
    (∀ (m : LsnMap) (logId : Nat),
      startReadingErase m logId logId = none ∧
      ∀ l, l ≠ logId → startReadingErase m logId l = m l) := by
  refine ⟨fun m logId lsn => by simp [setLastLSNInMap],
          fun m os logId v hv => readSeq_le os m logId v hv,
          fun m os logId => ?_,
          fun m logId => ⟨by simp [startReadingErase],
            fun l hl => by simp [startReadingErase, hl]⟩⟩
  cases hm : m logId with
  | none => simp
  | some v =>
    obtain ⟨v', hv', hle⟩ := readSeq_le os m logId v hm
    rw [hv']
    simpa using hle

/-- Witness for claim_C10: a map holding LSN 4 for log 0 grows to 9
after a gap up to 9 is delivered. -/
theorem claim_C10_witness :
    setLastLSNInMap (fun l => if l = 0 then some 4 else none) 0 9 0 =
      some 9 ∧
    4 ≤ (readSeq (fun l => if l = 0 then some 4 else none)
          [.gap 0 9] 0).getD 0 ∧
    startReadingErase (fun l => if l = 0 then some 4 else none) 0 0 =
      none := by
  refine ⟨?_, ?_, (claim_C10.2.2.2 _ 0).1⟩
  · have h := claim_C10.1 (fun l => if l = 0 then some 4 else none) 0 9
    simpa using h
  · obtain ⟨v', hv', hle⟩ :=
      claim_C10.2.1 (fun l => if l = 0 then some 4 else none)
        [.gap 0 9] 0 4 rfl
    rw [hv']
    simpa using hle

end LogDevice
